import Mathlib

/-!
Verification development for the Mutiny gateway client and event dispatch
engine.  The definitions below are a shallow embedding of the Python sources
under `src/mutiny/_internal/`:

* `event_handler.py` — `EventHandler.add_waiter`, `EventHandler.add_listener`,
  `EventHandler.dispatch`;
* `gateway.py` — `GatewayClient.start`, `connect`, `poll_loop`, `close`,
  `clear`, `_parse_json_message`, `_parse_msgpack_message`;
* `authentication_data.py` — `AuthenticationData`;
* `rest.py` — `RESTClient.clear`.

Python dictionaries are modelled as insertion-ordered association lists,
asyncio futures as an explicit four-state cell, exceptions as values of an
`Except`, and class objects as numeric type keys together with their MRO
(method resolution order) lists.
-/

namespace Mutiny

/-- A Python class object, identified by a numeric key.  Key `0` stands for
`object`, key `1` for the root `Event` class. -/
abbrev TypeKey := Nat

/-- The key of Python's `object` class, the final entry of every MRO. -/
def objectKey : TypeKey := 0

/-- The key of the root `Event` class (`mutiny.events.Event`). -/
def eventKey : TypeKey := 1

/-- An event instance handed to `EventHandler.dispatch`.  `mro` is
`event.__class__.__mro__`: the event's own class first, then its base
classes, ending with `object`.  `payload` distinguishes event instances. -/
structure PyEvent where
  mro : List TypeKey
  payload : Nat
deriving DecidableEq, Repr

/-- The state of an `asyncio.Future`: pending, cancelled, fulfilled with an
event (`set_result`), or fulfilled with an error (`set_exception`). -/
inductive FutureState where
  | pending
  | cancelled
  | doneEvent (ev : PyEvent)
  | doneError (e : Nat)
deriving DecidableEq, Repr

/-- A waiter predicate (`check`).  It may raise: raising exception `e` is
modelled as returning `.error e`. -/
abbrev Check := PyEvent → Except Nat Bool

/-- One entry of the waiter registry: the tuple `(future, check)` appended by
`add_waiter`.  `fid` is the identity of the future (so that external
cancellation can address it); `state` is the future's current state. -/
structure Waiter where
  fid : Nat
  state : FutureState
  check : Option Check

/-- Association-list lookup, modelling `dict.get`. -/
def alistGet {α : Type} : List (TypeKey × α) → TypeKey → Option α
  | [], _ => none
  | (k, v) :: rest, key => if k = key then some v else alistGet rest key

/-- `d.setdefault(key, []).append(x)`: append `x` to the bucket at `key`,
creating the bucket (at the end, preserving dict insertion order) if absent. -/
def alistAppend {α : Type} : List (TypeKey × List α) → TypeKey → α → List (TypeKey × List α)
  | [], key, x => [(key, [x])]
  | (k, xs) :: rest, key, x =>
    if k = key then (k, xs ++ [x]) :: rest else (k, xs) :: alistAppend rest key x

/-- `d.pop(key)`: remove the entry at `key`. -/
def alistPop {α : Type} : List (TypeKey × α) → TypeKey → List (TypeKey × α)
  | [], _ => []
  | (k, v) :: rest, key =>
    if k = key then alistPop rest key else (k, v) :: alistPop rest key

/-- Replace the bucket at `key` with `v` (in-place mutation of the list object
held in the dict). -/
def alistSet {α : Type} : List (TypeKey × α) → TypeKey → α → List (TypeKey × α)
  | [], _, _ => []
  | (k, x) :: rest, key, v =>
    if k = key then (key, v) :: rest else (k, x) :: alistSet rest key v

/-- The `EventHandler`'s two registries (`self.listeners`, `self.waiters`),
each an insertion-ordered dict from event class to a bucket list.  Listeners
are identified by numeric ids. -/
structure EventHandler where
  listeners : List (TypeKey × List Nat)
  waiters : List (TypeKey × List Waiter)

/-- A fresh `EventHandler()`: both registries empty. -/
def EventHandler.empty : EventHandler := ⟨[], []⟩

/-- `EventHandler.add_waiter`: create a fresh (pending) future and append
`(future, check)` to the bucket for `event_cls`. -/
def addWaiter (h : EventHandler) (cls : TypeKey) (fid : Nat) (check : Option Check) :
    EventHandler :=
  { h with waiters := alistAppend h.waiters cls ⟨fid, .pending, check⟩ }

/-- External cancellation of a waiter's future (e.g. by `asyncio.wait_for` on
timeout): `Future.cancel()` moves a pending future to cancelled and has no
effect on a completed one. -/
def cancelFuture (h : EventHandler) (fid : Nat) : EventHandler :=
  { h with
    waiters := h.waiters.map fun kw =>
      (kw.1, kw.2.map fun w =>
        if w.fid = fid ∧ w.state = .pending then { w with state := .cancelled } else w) }

/-- The body of the per-waiter loop in `EventHandler.dispatch` (lines
99–114): returns the waiter's updated state and whether its index was added
to `to_remove`.
* `future.cancelled()` → removed without being resolved;
* `check` raising `e` → `future.set_exception(e)`, removed;
* `check` returning `True`, or no `check` → `future.set_result(event)`, removed;
* `check` returning `False` → kept, untouched. -/
def processWaiter (ev : PyEvent) (w : Waiter) : Waiter × Bool :=
  if w.state = .cancelled then (w, true)
  else
    match w.check with
    | none => ({ w with state := .doneEvent ev }, true)
    | some c =>
      match c ev with
      | .error e => ({ w with state := .doneError e }, true)
      | .ok true => ({ w with state := .doneEvent ev }, true)
      | .ok false => (w, false)

/-- Process one waiter bucket: returns `(kept, removed)`.  Removing the
`to_remove` indices in descending order from the Python list keeps exactly
the non-removed entries in their original order, which is the filter below. -/
def processBucket (ev : PyEvent) (ws : List Waiter) : List Waiter × List Waiter :=
  let processed := ws.map (processWaiter ev)
  ((processed.filter fun p => !p.2).map Prod.fst,
   (processed.filter fun p => p.2).map Prod.fst)

/-- The waiter-registry update of one iteration of the outer `for cls in …`
loop of `dispatch` (lines 96–120): if no bucket is registered at `cls` the
registry is untouched; otherwise the bucket is processed and — when every
waiter was removed (`len(to_remove) == len(waiters)`) — the dict entry is
popped, else the kept waiters stay in the bucket. -/
def stepWaiters (ev : PyEvent) (m : List (TypeKey × List Waiter)) (cls : TypeKey) :
    List (TypeKey × List Waiter) :=
  match alistGet m cls with
  | none => m
  | some ws =>
    if ((processBucket ev ws).1).isEmpty then alistPop m cls
    else alistSet m cls (processBucket ev ws).1

/-- The waiters one loop iteration removes from the bucket at `cls` (with
their final future states). -/
def stepRemoved (ev : PyEvent) (m : List (TypeKey × List Waiter)) (cls : TypeKey) :
    List Waiter :=
  match alistGet m cls with
  | none => []
  | some ws => (processBucket ev ws).2

/-- One iteration of the outer `for cls in …` loop of `dispatch`: process the
waiter bucket at `cls`, then schedule every listener registered at `cls`, in
registration order.  Returns the updated handler, the waiters removed (with
their final future states), and the scheduled `(cls, listener)` pairs. -/
def dispatchStep (ev : PyEvent) (h : EventHandler) (cls : TypeKey) :
    EventHandler × List Waiter × List (TypeKey × Nat) :=
  ({ h with waiters := stepWaiters ev h.waiters cls },
   stepRemoved ev h.waiters cls,
   ((alistGet h.listeners cls).getD []).map fun lid => (cls, lid))

/-- The sequence of type keys visited by `dispatch`:
`itertools.islice(reversed(event.__class__.__mro__), 1, None)` — the MRO
reversed, skipping the first element (`object`). -/
def dispatchOrder (ev : PyEvent) : List TypeKey := ev.mro.reverse.drop 1

/-- The outer loop of `dispatch` over a list of type keys. -/
def dispatchAux (ev : PyEvent) (h : EventHandler) :
    List TypeKey → EventHandler × List Waiter × List (TypeKey × Nat)
  | [] => (h, [], [])
  | cls :: rest =>
    let step := dispatchStep ev h cls
    let tail := dispatchAux ev step.1 rest
    (tail.1, step.2.1 ++ tail.2.1, step.2.2 ++ tail.2.2)

/-- `EventHandler.dispatch(event)`: visit each class of the event's reversed
MRO (skipping `object`), resolving waiters and scheduling listeners.  Returns
the updated handler, the removed waiters in processing order, and the
scheduled listener invocations in scheduling order. -/
def dispatch (h : EventHandler) (ev : PyEvent) :
    EventHandler × List Waiter × List (TypeKey × Nat) :=
  dispatchAux ev h (dispatchOrder ev)

/-- The listener invocations scheduled by one `dispatch` call, in order. -/
def dispatchScheduled (h : EventHandler) (ev : PyEvent) : List (TypeKey × Nat) :=
  (dispatch h ev).2.2

/-! ### `add_listener` (event_handler.py, lines 54–90)

A Python callback's signature is modelled as inspected data: the list of
parameters (in declaration order) with their `inspect.Parameter.kind` and
whether they carry a default (`param.default is not Parameter.empty` — note
that `*args` and `**kwargs` parameters never carry a default), plus the
result of `get_type_hints` as a name → class map. -/

/-- `inspect.Parameter.kind`. -/
inductive ParamKind where
  | positionalOnly
  | positionalOrKeyword
  | varPositional
  | keywordOnly
  | varKeyword
deriving DecidableEq, Repr

/-- One inspected parameter: its name (as an id), kind, and whether it has a
default value. -/
structure Param where
  name : Nat
  kind : ParamKind
  hasDefault : Bool
deriving DecidableEq, Repr

/-- An inspected callback: its parameters and its `get_type_hints` map. -/
structure Callback where
  params : List Param
  hints : List (Nat × TypeKey)

/-- Type-hint lookup by parameter name (`type_hints[param.name]`). -/
def hintGet : List (Nat × TypeKey) → Nat → Option TypeKey
  | [], _ => none
  | (n, c) :: rest, name => if n = name then some c else hintGet rest name

/-- A concrete class universe for `issubclass` checks: class `1` is the root
`Event`, classes `2` and `3` are `Base(Event)` and `Derived(Base)`, and any
other class is a direct subclass of `object` only (e.g. `int`). -/
def mroOf : TypeKey → List TypeKey
  | 0 => [0]
  | 1 => [1, 0]
  | 2 => [2, 1, 0]
  | 3 => [3, 2, 1, 0]
  | n => [n, 0]

/-- `issubclass(c, d)`: `d` occurs in `c.__mro__`. -/
def issubclass (c d : TypeKey) : Bool := (mroOf c).contains d

/-- `EventHandler.add_listener(listener, *, event_cls=None)`, translated
faithfully from the source:
1. take the first parameter; no parameter at all is a `TypeError`;
2. its kind must be positional-only, positional-or-keyword or
   var-positional, else `TypeError`;
3. every remaining parameter must have a default, else `TypeError`
   ("more than one required argument");
4. if `event_cls` was not given, it is read from the type hints under
   `param.name` — and after the `for param in it` loop, `param` is the LAST
   parameter of the signature (the first only when there are no others);
   a missing hint is a `TypeError`;
5. the resolved class must be a subclass of `Event`, else `TypeError`;
6. finally the listener is appended to the bucket for the resolved class. -/
def addListener (h : EventHandler) (cb : Callback) (lid : Nat)
    (eventCls : Option TypeKey) : Except String EventHandler :=
  match cb.params with
  | [] => .error "Function does not have one required positional argument."
  | first :: rest =>
    if ¬ (first.kind = .positionalOnly ∨ first.kind = .positionalOrKeyword ∨
        first.kind = .varPositional) then
      .error "Function does not have one required positional argument."
    else if rest.any (fun p => p.hasDefault = false) then
      .error "Function has more than one required argument."
    else
      let lastParam := rest.getLastD first
      let cls? :=
        match eventCls with
        | some c => some c
        | none => hintGet cb.hints lastParam.name
      match cls? with
      | none =>
        .error "Function does not have a type hint on its first positional argument."
      | some c =>
        if issubclass c eventKey then
          .ok { h with listeners := alistAppend h.listeners c lid }
        else
          .error "Type hint of first positional argument is not a subclass of Event."

/-! ### Gateway client (gateway.py) -/

/-- Python exceptions relevant to the gateway control flow. -/
inductive PyExc where
  | clientError
  | timeoutError
  | authenticationError
  | runtimeError
  | attributeError
  | otherError (e : Nat)
deriving DecidableEq, Repr

/-- `aiohttp.WSMsgType`, restricted to the cases the poll loop distinguishes. -/
inductive WSMsgType where
  | text
  | binary
  | error
deriving DecidableEq, Repr

/-- One websocket frame.  aiohttp stores either the frame content or (for
ERROR frames) an exception in the single `data` attribute; the model splits
it: `payload` is the content of a TEXT/BINARY frame, `errorExc` the exception
carried by an ERROR frame. -/
structure WSMessage where
  type : WSMsgType
  payload : Nat
  errorExc : PyExc
deriving DecidableEq, Repr

/-- `GatewayMessageFormat`. -/
inductive GatewayMessageFormat where
  | json
  | msgpack
deriving DecidableEq, Repr

/-- `GatewayClient._parse_json_message`: a non-TEXT frame raises
`RuntimeError`; otherwise the frame content is returned (its parsing by
`json.loads` is the content-decoding step, handled by the external decode
function in `pollLoop`). -/
def parseJsonMessage (msg : WSMessage) : Except PyExc Nat :=
  if msg.type ≠ .text then .error .runtimeError else .ok msg.payload

/-- `GatewayClient._parse_msgpack_message`: a non-BINARY frame raises
`RuntimeError`; otherwise the frame content is returned. -/
def parseMsgpackMessage (msg : WSMessage) : Except PyExc Nat :=
  if msg.type ≠ .binary then .error .runtimeError else .ok msg.payload

/-- `set_gateway_format`: `parse_message` is `_parse_json_message` in json
mode and `_parse_msgpack_message` in msgpack mode. -/
def parseMessage (fmt : GatewayMessageFormat) (msg : WSMessage) : Except PyExc Nat :=
  match fmt with
  | .json => parseJsonMessage msg
  | .msgpack => parseMsgpackMessage msg

/-- `GatewayClient.poll_loop`, over the list of frames the websocket yields
before closing.  `decode` stands for the external content-decoding and event
construction step (`json.loads`/`msgpack.unpackb` of the payload,
`Event._from_dict`, `event._gateway_handle()`), which may raise.
Per frame:
* an ERROR frame re-raises the exception it carries (`raise msg.data`);
* `parse_message` + decode raising `AuthenticationError` re-raises;
* any other exception from that step is logged and the loop continues;
* a successfully decoded event is dispatched.
Returns the dispatched events in order, and the exception that terminated
the loop, if any (`none` = the websocket closed and the loop ended). -/
def pollLoop (fmt : GatewayMessageFormat) (decode : Nat → Except PyExc PyEvent) :
    List WSMessage → List PyEvent × Option PyExc
  | [] => ([], none)
  | msg :: rest =>
    if msg.type = .error then ([], some msg.errorExc)
    else
      match (parseMessage fmt msg).bind decode with
      | .error .authenticationError => ([], some .authenticationError)
      | .error _ => pollLoop fmt decode rest
      | .ok ev =>
        let tail := pollLoop fmt decode rest
        (ev :: tail.1, tail.2)

/-- Modelled from the spec: `ExponentialBackoff` (its module, backoff.py, is
not among the sources).  §4.2: `next_delay()` returns
`min(base * multiplier^attempt, cap)` and then increments the attempt
counter; `reset()` sets the counter back to zero; the gateway client runs it
with unlimited attempts (`max_attempts=None`), so exhaustion never occurs. -/
structure ExponentialBackoff where
  base : Nat
  multiplier : Nat
  cap : Nat
  attempt : Nat
deriving DecidableEq, Repr

/-- Modelled from the spec: `next_delay()` — the delay
`min(base * multiplier^attempt, cap)`, and the state with the attempt
counter incremented. -/
def nextDelay (b : ExponentialBackoff) : Nat × ExponentialBackoff :=
  (min (b.base * b.multiplier ^ b.attempt) b.cap, { b with attempt := b.attempt + 1 })

/-- Modelled from the spec: `reset()` — attempt counter back to zero. -/
def resetBackoff (b : ExponentialBackoff) : ExponentialBackoff :=
  { b with attempt := 0 }

/-- How one `connect()` attempt (which includes the handshake and the whole
`poll_loop`) ends: either an exception propagates out of it, or it returns
normally with the websocket's close code. -/
inductive ConnectOutcome where
  | raised (e : PyExc)
  | finished (closeCode : Option Nat)
deriving DecidableEq, Repr

/-- The effect of one iteration of `start()`'s `while` loop. -/
inductive StartStepResult where
  | retry (delay : Nat) (b : ExponentialBackoff)
  | returned (delay : Nat) (b : ExponentialBackoff)
  | raised (e : PyExc) (delay : Nat) (b : ExponentialBackoff)
deriving Repr

/-- The backoff handling at the top of a `start()` iteration: reset if the
previous attempt got authenticated, then `backoff.delay(...)`. -/
def startIterationDelay (authenticated : Bool) (b : ExponentialBackoff) :
    Nat × ExponentialBackoff :=
  nextDelay (if authenticated then resetBackoff b else b)

/-- One iteration of the reconnection loop in `GatewayClient.start`
(lines 114–134): reset the backoff iff `self.authenticated`; await the next
backoff delay; attempt `connect()`.  `aiohttp.ClientError` and
`asyncio.TimeoutError` are caught and the loop continues; any other
exception propagates out of `start()`.  After a normal return, a `None`
close code means a clean local close (`start()` returns), any other close
code retries. -/
def startIteration (authenticated : Bool) (b : ExponentialBackoff)
    (outcome : ConnectOutcome) : StartStepResult :=
  let d := startIterationDelay authenticated b
  match outcome with
  | .raised e =>
    if e = .clientError ∨ e = .timeoutError then .retry d.1 d.2
    else .raised e d.1 d.2
  | .finished none => .returned d.1 d.2
  | .finished (some _) => .retry d.1 d.2

/-- Whether a start-loop iteration continues the loop. -/
def StartStepResult.isRetry : StartStepResult → Bool
  | .retry _ _ => true
  | _ => false

/-- Whether a start-loop iteration lets an exception propagate out of
`start()`, and which. -/
def StartStepResult.raisedExc : StartStepResult → Option PyExc
  | .raised e _ _ => some e
  | _ => none

/-- The state of the open websocket handle (`self.ws`), as far as `close()`
inspects it. -/
structure WSState where
  wsClosed : Bool
  closeCode : Option Nat
deriving DecidableEq, Repr

/-- The attribute state of a `GatewayClient` relevant to `close()` and
`clear()`.  `ws = none` means the `ws` attribute has never been assigned
(it is only a class-level annotation until `connect()` runs); likewise
`hasUrl`/`hasSession` record whether `prepare()` has assigned the `url` and
`session` attributes (and whether `clear()` has deleted them). -/
structure GatewayState where
  prepared : Bool
  closed : Bool
  authenticated : Bool
  hasUrl : Bool
  hasSession : Bool
  ws : Option WSState
deriving DecidableEq, Repr

/-- A freshly constructed `GatewayClient`: `_prepared = _closed =
authenticated = False`, and no `ws`/`url`/`session` attributes assigned. -/
def GatewayState.fresh : GatewayState :=
  ⟨false, false, false, false, false, none⟩

/-- `GatewayClient.close` (lines 98–104): return immediately if `_closed`;
otherwise read `self.ws` — if the attribute was never assigned this raises
`AttributeError` before any state change — close it if open, then set
`_closed = True` and `authenticated = False`.  Returns the resulting state
and the exception raised, if any. -/
def gatewayClose (s : GatewayState) : GatewayState × Option PyExc :=
  if s.closed then (s, none)
  else
    match s.ws with
    | none => (s, some .attributeError)
    | some w =>
      let s1 :=
        if w.wsClosed = false then { s with ws := some { w with wsClosed := true } } else s
      ({ s1 with closed := true, authenticated := false }, none)

/-- `GatewayClient.clear` (lines 106–110): return if not `_prepared`;
otherwise `del self.url` and `del self.session`.  `del` of an attribute that
does not exist raises `AttributeError`; `_prepared` is never reset.  Returns
the resulting state and the exception raised, if any. -/
def gatewayClear (s : GatewayState) : GatewayState × Option PyExc :=
  if s.prepared = false then (s, none)
  else if s.hasUrl = false then (s, some .attributeError)
  else if s.hasSession = false then ({ s with hasUrl := false }, some .attributeError)
  else ({ s with hasUrl := false, hasSession := false }, none)

/-- The attribute state of a `RESTClient` relevant to `clear()` (rest.py,
lines 71–75): whether `prepare()` completed (`_prepared`) and whether the
`session` and `configuration` attributes currently exist. -/
structure RESTState where
  prepared : Bool
  hasSession : Bool
  hasConfiguration : Bool
deriving DecidableEq, Repr

/-- `RESTClient.clear`: return if not `_prepared`; otherwise
`del self.session` and `del self.configuration` — each raising
`AttributeError` if the attribute no longer exists; `_prepared` is never
reset. -/
def restClear (s : RESTState) : RESTState × Option PyExc :=
  if s.prepared = false then (s, none)
  else if s.hasSession = false then (s, some .attributeError)
  else if s.hasConfiguration = false then ({ s with hasSession := false }, some .attributeError)
  else ({ s with hasSession := false, hasConfiguration := false }, none)

/-! ### `AuthenticationData` (authentication_data.py) -/

/-- Python's `a or b` on optional strings: `a` if it is truthy (present and
non-empty), else `b`. -/
def pyOr (a b : Option String) : Option String :=
  match a with
  | some s => if s = "" then b else some s
  | none => b

/-- The credential holder: at most the validated fields. -/
structure AuthenticationData where
  token : Option String
  session_token : Option String
deriving DecidableEq, Repr

/-- The `AuthenticationData` constructor: `ValueError` if both of
`token`/`session_token` are given, `ValueError` if neither is; otherwise
both fields are stored as passed. -/
def mkAuthenticationData (token session_token : Option String) :
    Except String AuthenticationData :=
  match token with
  | some _ =>
    match session_token with
    | some _ => .error "You can either pass token or session_token, not both"
    | none => .ok ⟨token, session_token⟩
  | none =>
    match session_token with
    | none => .error "You have to pass either token or session_token"
    | some _ => .ok ⟨token, session_token⟩

/-- `AuthenticationData.to_dict`: `{"token": self.token or self.session_token}`. -/
def toDict (a : AuthenticationData) : List (String × Option String) :=
  [("token", pyOr a.token a.session_token)]

/-- `AuthenticationData.to_headers`: the bot-token header if `token` is not
`None` (with value `self.token or self.session_token`), otherwise the
session-token header. -/
def toHeaders (a : AuthenticationData) : List (String × Option String) :=
  match a.token with
  | some _ => [("x-bot-token", pyOr a.token a.session_token)]
  | none => [("x-session-token", a.session_token)]

/-! ### Operation sequences over the event handler (for the registry
invariant) -/

/-- The operations that touch the waiter registry: registering a waiter,
an external cancellation of a waiter's future, and a dispatch. -/
inductive HOp where
  | addW (cls : TypeKey) (fid : Nat) (check : Option Check)
  | cancel (fid : Nat)
  | disp (ev : PyEvent)

/-- Apply one operation to the handler. -/
def applyOp (h : EventHandler) : HOp → EventHandler
  | .addW cls fid check => addWaiter h cls fid check
  | .cancel fid => cancelFuture h fid
  | .disp ev => (dispatch h ev).1

/-- Run a sequence of operations from a given handler state. -/
def runOps (h : EventHandler) (ops : List HOp) : EventHandler :=
  ops.foldl applyOp h

/-- Every waiter still held by the registry is unresolved: pending or (not
yet visited since) cancelled. -/
def unresolvedInv (h : EventHandler) : Prop :=
  ∀ kw ∈ h.waiters, ∀ w ∈ kw.2, w.state = .pending ∨ w.state = .cancelled

/-- A waiter the registry may legitimately hold: its future is pending or
cancelled (never fulfilled). -/
def WaiterOK (w : Waiter) : Prop := w.state = .pending ∨ w.state = .cancelled

/-- A waiter registry all of whose entries are unresolved. -/
def RegOK (m : List (TypeKey × List Waiter)) : Prop :=
  ∀ kw ∈ m, ∀ w ∈ kw.2, WaiterOK w

/-- The specification of the listener invocations one `dispatch` call
schedules, given the listener registry and the visited type keys: for each
key, the registered bucket in order. -/
def scheduleSpec (ls : List (TypeKey × List Nat)) : List TypeKey → List (TypeKey × Nat)
  | [] => []
  | k :: rest => ((alistGet ls k).getD []).map (fun lid => (k, lid)) ++ scheduleSpec ls rest

/-- A concrete waiter predicate: matches events whose payload is `1`. -/
def payloadIsOne : Check := fun ev => .ok (ev.payload == 1)

/-- A callback `async def cb(event: Derived, extra: int = 0)`: first
parameter hinted with the Event subclass `Derived` (class 3), one extra
defaulted parameter hinted `int` (class 4). -/
def twoParamCallback : Callback :=
  { params := [⟨10, .positionalOrKeyword, false⟩, ⟨11, .positionalOrKeyword, true⟩],
    hints := [(10, 3), (11, 4)] }

/-- A waiter predicate that always raises (exception id 42). -/
def raiseCheck : Check := fun _ => .error 42

/-- An event of class `Base` (2) with payload `0` — the predicate
`payloadIsOne` rejects it. -/
def evA : PyEvent := ⟨[2, 1, 0], 0⟩

/-- An event of class `Base` (2) with payload `1` — the predicate
`payloadIsOne` matches it. -/
def evB : PyEvent := ⟨[2, 1, 0], 1⟩

/-- A handler with a single waiter registered at class `Base` (2), predicate
`payloadIsOne`, pending future `0`. -/
def scenarioHandler : EventHandler := addWaiter EventHandler.empty 2 0 (some payloadIsOne)

/-- A decode step that always raises `AuthenticationError` (a frame whose
processing fails authentication). -/
def authFailDecode : Nat → Except PyExc PyEvent := fun _ => .error .authenticationError

/-- A decode step that succeeds, producing a `Base` event carrying the frame
payload. -/
def okDecode : Nat → Except PyExc PyEvent := fun n => .ok ⟨[2, 1, 0], n⟩

/-! ## Theorems -/

/-- C10: if `close()` is called before any `connect()` call has assigned the
`ws` attribute, and the client is not already marked closed, the
unconditional read of `self.ws` raises `AttributeError` and the `_closed`
flag is left unset. -/
theorem C10_close_before_connect (s : GatewayState)
    (hws : s.ws = none) (hc : s.closed = false) :
    gatewayClose s = (s, some .attributeError) ∧
      (gatewayClose s).1.closed = false := by
  simp [gatewayClose, hws, hc]

/-- C10 witness: a freshly constructed gateway client. -/
theorem C10_close_before_connect_witness :
    gatewayClose GatewayState.fresh = (GatewayState.fresh, some .attributeError) ∧
      (gatewayClose GatewayState.fresh).1.closed = false :=
  C10_close_before_connect GatewayState.fresh rfl rfl

/-- C8 (code bug): `clear()` is not idempotent on the REST and gateway
components.  On a prepared `RESTClient`, the first `clear()` deletes
`session` and `configuration` but leaves `_prepared = True`, so a second
`clear()` runs `del self.session` on a missing attribute and raises
`AttributeError`; the prepared `GatewayClient` behaves the same with
`url`/`session`. -/
theorem C8_clear_not_idempotent :
    (restClear ⟨true, true, true⟩ = (⟨true, false, false⟩, none) ∧
      restClear (restClear ⟨true, true, true⟩).1 =
        (⟨true, false, false⟩, some .attributeError)) ∧
    (gatewayClear ⟨true, true, false, true, true, some ⟨true, none⟩⟩ =
        (⟨true, true, false, false, false, some ⟨true, none⟩⟩, none) ∧
      gatewayClear (gatewayClear ⟨true, true, false, true, true, some ⟨true, none⟩⟩).1 =
        (⟨true, true, false, false, false, some ⟨true, none⟩⟩, some .attributeError)) := by
  decide

/-- C7 counterexample: the constructor accepts `token=""` (it is not `None`),
but `to_dict()` then returns `{"token": None}` rather than the set
credential `""`, because Python's `or` treats the empty string as falsy. -/
theorem C7_toDict_counterexample :
    mkAuthenticationData (some "") none = .ok ⟨some "", none⟩ ∧
      toDict ⟨some "", none⟩ = [("token", none)] ∧
      toDict ⟨some "", none⟩ ≠ [("token", some "")] := by
  refine ⟨rfl, rfl, ?_⟩
  simp [toDict, pyOr]

/-- C7 (amended): provided a set bot token is a non-empty string, every
input accepted by the constructor has exactly one credential set, `to_dict`
returns the set credential under `"token"`, and `to_headers` returns exactly
the bot-token header when a bot token is set and the session-token header
otherwise; both-provided and neither-provided inputs are rejected. -/
theorem C7_credential_projections (token session_token : Option String)
    (a : AuthenticationData)
    (hok : mkAuthenticationData token session_token = .ok a)
    (hbot : token ≠ some "") :
    (∀ t s b, mkAuthenticationData (some t) (some s) ≠ .ok b) ∧
    (∀ b, mkAuthenticationData none none ≠ .ok b) ∧
    ((∃ s, a.token = some s ∧ a.session_token = none ∧
        toDict a = [("token", some s)] ∧ toHeaders a = [("x-bot-token", some s)]) ∨
      (∃ s, a.token = none ∧ a.session_token = some s ∧
        toDict a = [("token", some s)] ∧ toHeaders a = [("x-session-token", some s)])) := by
  refine ⟨fun t s b h => by simp [mkAuthenticationData] at h,
    fun b h => by simp [mkAuthenticationData] at h, ?_⟩
  match token, session_token with
  | some t, some s => simp [mkAuthenticationData] at hok
  | none, none => simp [mkAuthenticationData] at hok
  | some t, none =>
    left
    simp only [mkAuthenticationData, Except.ok.injEq] at hok
    subst hok
    have ht : t ≠ "" := fun h => hbot (by simp [h])
    exact ⟨t, rfl, rfl, by simp [toDict, pyOr, ht], by simp [toHeaders, pyOr, ht]⟩
  | none, some s =>
    right
    simp only [mkAuthenticationData, Except.ok.injEq] at hok
    subst hok
    exact ⟨s, rfl, rfl, by simp [toDict, pyOr], by simp [toHeaders]⟩

/-- C7 witness: a bot token `"tok"`. -/
theorem C7_credential_projections_witness :
    mkAuthenticationData (some "tok") none = .ok ⟨some "tok", none⟩ ∧
    (some "tok" : Option String) ≠ some "" ∧
    ((∀ t s b, mkAuthenticationData (some t) (some s) ≠ .ok b) ∧
      (∀ b, mkAuthenticationData none none ≠ .ok b) ∧
      ((∃ s, (some "tok" : Option String) = some s ∧ (none : Option String) = none ∧
          toDict ⟨some "tok", none⟩ = [("token", some s)] ∧
          toHeaders ⟨some "tok", none⟩ = [("x-bot-token", some s)]) ∨
        (∃ s, (some "tok" : Option String) = none ∧ (none : Option String) = some s ∧
          toDict ⟨some "tok", none⟩ = [("token", some s)] ∧
          toHeaders ⟨some "tok", none⟩ = [("x-session-token", some s)]))) :=
  ⟨rfl, by simp,
    C7_credential_projections (some "tok") none ⟨some "tok", none⟩ rfl (by simp)⟩

/-- C6 (code bug): for the callback `async def cb(event: Derived,
extra: int = 0)` — one required positional parameter whose type hint is the
Event subclass `Derived` — the claim (and the library's own `add_listener`
documentation) says registration succeeds using the first parameter's hint,
but the code reads the hint of the LAST parameter (the loop variable `param`
is reused), resolves `int`, and raises `TypeError`. -/
theorem C6_addListener_uses_last_param_hint :
    addListener EventHandler.empty twoParamCallback 0 none =
      .error "Type hint of first positional argument is not a subclass of Event." ∧
    hintGet twoParamCallback.hints 10 = some 3 ∧
    issubclass 3 eventKey = true := by
  exact ⟨rfl, rfl, rfl⟩

/-- C5: in a `start()` iteration the backoff attempt counter is reset to
zero iff the previous attempt reached the authenticated state (or it was
zero already), and the awaited delay after an authenticated session is the
base delay `min(base * multiplier^0, cap) = base`, not an escalated one. -/
theorem C5_backoff_reset_iff_authenticated (auth : Bool) (b : ExponentialBackoff)
    (hbc : b.base ≤ b.cap) :
    ((if auth then resetBackoff b else b).attempt = 0 ↔ (auth = true ∨ b.attempt = 0)) ∧
    (auth = true → (startIterationDelay auth b).1 = b.base) ∧
    (auth = false →
      (startIterationDelay auth b).1 = min (b.base * b.multiplier ^ b.attempt) b.cap) := by
  refine ⟨?_, ?_, ?_⟩
  · cases auth <;> simp [resetBackoff]
  · intro h
    subst h
    simp [startIterationDelay, nextDelay, resetBackoff, Nat.min_eq_left hbc]
  · intro h
    subst h
    simp [startIterationDelay, nextDelay]

/-- C5 witness: after five failed attempts, an authenticated session resets
the backoff and the next delay is the base delay. -/
theorem C5_backoff_reset_iff_authenticated_witness :
    (1 : Nat) ≤ 60 ∧
    (((if true then resetBackoff ⟨1, 2, 60, 5⟩ else ⟨1, 2, 60, 5⟩).attempt = 0 ↔
        (true = true ∨ (5 : Nat) = 0)) ∧
      (true = true → (startIterationDelay true ⟨1, 2, 60, 5⟩).1 = 1) ∧
      (true = false →
        (startIterationDelay true ⟨1, 2, 60, 5⟩).1 = min (1 * 2 ^ 5) 60)) :=
  ⟨by decide, C5_backoff_reset_iff_authenticated true ⟨1, 2, 60, 5⟩ (by decide)⟩

/-- C3: `start()` catches `aiohttp.ClientError` and `asyncio.TimeoutError`
from `connect()` and retries, while an `AuthenticationError` raised while
processing a frame is re-raised by `poll_loop` and propagates out of
`start()`. -/
theorem C3_transient_retry_auth_fatal (auth : Bool) (b : ExponentialBackoff)
    (fmt : GatewayMessageFormat) (decode : Nat → Except PyExc PyEvent)
    (msg : WSMessage) (rest : List WSMessage)
    (hmsg : msg.type ≠ .error)
    (hauth : (parseMessage fmt msg).bind decode = .error .authenticationError) :
    (startIteration auth b (.raised .clientError)).isRetry = true ∧
    (startIteration auth b (.raised .timeoutError)).isRetry = true ∧
    (pollLoop fmt decode (msg :: rest)).2 = some .authenticationError ∧
    (startIteration auth b (.raised .authenticationError)).raisedExc =
      some .authenticationError := by
  refine ⟨rfl, rfl, ?_, rfl⟩
  simp [pollLoop, hmsg, hauth]

/-- C3 witness: a text frame whose event decoding raises
`AuthenticationError`. -/
theorem C3_transient_retry_auth_fatal_witness :
    ((WSMessage.mk .text 0 .runtimeError).type ≠ .error) ∧
    ((parseMessage .json (WSMessage.mk .text 0 .runtimeError)).bind authFailDecode =
      .error .authenticationError) ∧
    ((startIteration false ⟨1, 2, 60, 0⟩ (.raised .clientError)).isRetry = true ∧
      (startIteration false ⟨1, 2, 60, 0⟩ (.raised .timeoutError)).isRetry = true ∧
      (pollLoop .json authFailDecode
          [WSMessage.mk .text 0 .runtimeError]).2 = some .authenticationError ∧
      (startIteration false ⟨1, 2, 60, 0⟩ (.raised .authenticationError)).raisedExc =
        some .authenticationError) := by
  refine ⟨by decide, rfl, ?_⟩
  exact C3_transient_retry_auth_fatal false ⟨1, 2, 60, 0⟩ .json
    authFailDecode (WSMessage.mk .text 0 .runtimeError) []
    (by decide) rfl

/-- C4: a binary frame while configured for JSON makes `_parse_json_message`
raise `RuntimeError`; `poll_loop` catches it and processes the next valid
frame, and the loop is not terminated by the mismatch. -/
theorem C4_frame_mismatch_is_frame_scoped (decode : Nat → Except PyExc PyEvent)
    (bin good : WSMessage) (ev : PyEvent)
    (hbin : bin.type = .binary) (hgood : good.type = .text)
    (hdec : decode good.payload = .ok ev) :
    parseJsonMessage bin = .error .runtimeError ∧
    pollLoop .json decode [bin, good] = ([ev], none) := by
  constructor
  · simp [parseJsonMessage, hbin]
  · simp [pollLoop, parseMessage, parseJsonMessage, hbin, hgood, hdec, Except.bind]

/-- C4 witness: a binary frame followed by a valid text frame. -/
theorem C4_frame_mismatch_is_frame_scoped_witness :
    ((WSMessage.mk .binary 7 .runtimeError).type = .binary) ∧
    ((WSMessage.mk .text 8 .runtimeError).type = .text) ∧
    (okDecode 8 = .ok (PyEvent.mk [2, 1, 0] 8)) ∧
    (parseJsonMessage (WSMessage.mk .binary 7 .runtimeError) = .error .runtimeError ∧
      pollLoop .json okDecode
        [WSMessage.mk .binary 7 .runtimeError, WSMessage.mk .text 8 .runtimeError] =
        ([PyEvent.mk [2, 1, 0] 8], none)) :=
  ⟨rfl, rfl, rfl,
    C4_frame_mismatch_is_frame_scoped okDecode
      (WSMessage.mk .binary 7 .runtimeError) (WSMessage.mk .text 8 .runtimeError)
      (PyEvent.mk [2, 1, 0] 8) rfl rfl rfl⟩

/-- A dispatch step never touches the listener registry. -/
theorem dispatchStep_listeners (ev : PyEvent) (h : EventHandler) (cls : TypeKey) :
    (dispatchStep ev h cls).1.listeners = h.listeners := rfl

/-- The listeners a dispatch step schedules at `cls`: exactly the registered
bucket, in order. -/
theorem dispatchStep_scheduled (ev : PyEvent) (h : EventHandler) (cls : TypeKey) :
    (dispatchStep ev h cls).2.2 =
      ((alistGet h.listeners cls).getD []).map (fun lid => (cls, lid)) := rfl

/-- Over any visit list, the scheduled invocations are exactly
`scheduleSpec` of the original listener registry. -/
theorem dispatchAux_scheduled (ev : PyEvent) (h : EventHandler) (keys : List TypeKey) :
    (dispatchAux ev h keys).2.2 = scheduleSpec h.listeners keys := by
  induction keys generalizing h with
  | nil => rfl
  | cons k rest ih =>
    show (dispatchStep ev h k).2.2 ++ (dispatchAux ev (dispatchStep ev h k).1 rest).2.2 =
      scheduleSpec h.listeners (k :: rest)
    rw [dispatchStep_scheduled, ih, dispatchStep_listeners, scheduleSpec]

/-- Appending to a bucket (`setdefault` + `append`) extends exactly that
bucket at its end. -/
theorem alistGet_alistAppend {α : Type} (m : List (TypeKey × List α)) (k : TypeKey) (x : α) :
    alistGet (alistAppend m k x) k = some ((alistGet m k).getD [] ++ [x]) := by
  induction m with
  | nil => simp [alistAppend, alistGet]
  | cons p rest ih =>
    obtain ⟨k', xs⟩ := p
    by_cases hk : k' = k <;> simp [alistAppend, alistGet, hk, ih]

/-- C1: dispatching an event whose MRO is a single-inheritance chain
`chain.reverse ++ [object]` (with `chain` listed root-`Event`-first, the
event's own class last) visits exactly the keys of `chain` in that
most-general-to-most-specific order, visits each key exactly once (the
chain has no duplicates), schedules at every key exactly the registered
bucket in order, and `add_listener` appends each new listener at the end of
its bucket, so a bucket is in registration order. -/
theorem C1_dispatch_hierarchy_order (h : EventHandler) (ev : PyEvent)
    (chain : List TypeKey) (hmro : ev.mro = chain.reverse ++ [objectKey])
    (hnd : chain.Nodup) :
    dispatchOrder ev = chain ∧
    (dispatchOrder ev).Nodup ∧
    dispatchScheduled h ev = scheduleSpec h.listeners chain ∧
    (∀ (cb : Callback) (lid : Nat) (c : TypeKey) (h' : EventHandler),
      addListener h cb lid (some c) = .ok h' →
      alistGet h'.listeners c = some ((alistGet h.listeners c).getD [] ++ [lid])) := by
  have horder : dispatchOrder ev = chain := by
    simp [dispatchOrder, hmro]
  refine ⟨horder, horder ▸ hnd, ?_, ?_⟩
  · rw [dispatchScheduled, dispatch, horder]
    exact dispatchAux_scheduled ev h chain
  · intro cb lid c h' hadd
    unfold addListener at hadd
    split at hadd
    · exact absurd hadd (by simp)
    · split at hadd
      · exact absurd hadd (by simp)
      · split at hadd
        · exact absurd hadd (by simp)
        · simp only [] at hadd
          split at hadd
          · obtain rfl : { h with listeners := alistAppend h.listeners c lid } = h' := by
              simpa using hadd
            exact alistGet_alistAppend h.listeners c lid
          · exact absurd hadd (by simp)

/-- C1 witness: `Derived(3) <: Base(2) <: Event(1)` with one listener on
each level: a dispatched `Derived` instance schedules the `Event`-level,
`Base`-level, then `Derived`-level listener, each exactly once. -/
theorem C1_dispatch_hierarchy_order_witness :
    ((PyEvent.mk [3, 2, 1, 0] 0).mro = [1, 2, 3].reverse ++ [objectKey]) ∧
    ([1, 2, 3] : List TypeKey).Nodup ∧
    (dispatchOrder (PyEvent.mk [3, 2, 1, 0] 0) = [1, 2, 3] ∧
      (dispatchOrder (PyEvent.mk [3, 2, 1, 0] 0)).Nodup ∧
      dispatchScheduled ⟨[(1, [100]), (2, [200]), (3, [300])], []⟩
          (PyEvent.mk [3, 2, 1, 0] 0) =
        scheduleSpec [(1, [100]), (2, [200]), (3, [300])] [1, 2, 3] ∧
      (∀ (cb : Callback) (lid : Nat) (c : TypeKey) (h' : EventHandler),
        addListener ⟨[(1, [100]), (2, [200]), (3, [300])], []⟩ cb lid (some c) = .ok h' →
        alistGet h'.listeners c =
          some ((alistGet [(1, [100]), (2, [200]), (3, [300])] c).getD [] ++ [lid]))) ∧
    dispatchScheduled ⟨[(1, [100]), (2, [200]), (3, [300])], []⟩
        (PyEvent.mk [3, 2, 1, 0] 0) = [(1, 100), (2, 200), (3, 300)] :=
  ⟨rfl, by decide,
    C1_dispatch_hierarchy_order ⟨[(1, [100]), (2, [200]), (3, [300])], []⟩
      (PyEvent.mk [3, 2, 1, 0] 0) [1, 2, 3] rfl (by decide),
    rfl⟩

/-- A popped key is gone from the dict. -/
theorem alistGet_alistPop {α : Type} (m : List (TypeKey × α)) (k : TypeKey) :
    alistGet (alistPop m k) k = none := by
  induction m with
  | nil => rfl
  | cons p rest ih =>
    obtain ⟨k', v⟩ := p
    by_cases hk : k' = k <;> simp [alistPop, alistGet, hk, ih]

/-- C2: for every waiter pending at a visited type key — an
already-cancelled future is removed without being resolved; a raising
predicate resolves the waiter with that error and removes it; a matching or
absent predicate resolves the waiter with the event and removes it; a false
predicate leaves the waiter registered and pending (so a waiter whose
predicate rejects event A and accepts event B stays pending after
dispatching A and resolves with B); and the type-key bucket is removed
entirely once it is empty. -/
theorem C2_waiter_lifecycle :
    (∀ ev w, w.state = .cancelled → processWaiter ev w = (w, true)) ∧
    (∀ ev w c e, w.state ≠ .cancelled → w.check = some c → c ev = .error e →
      processWaiter ev w = ({ w with state := .doneError e }, true)) ∧
    (∀ ev w, w.state ≠ .cancelled →
      (w.check = none ∨ ∃ c, w.check = some c ∧ c ev = .ok true) →
      processWaiter ev w = ({ w with state := .doneEvent ev }, true)) ∧
    (∀ ev w c, w.state ≠ .cancelled → w.check = some c → c ev = .ok false →
      processWaiter ev w = (w, false)) ∧
    (∀ ev h cls ws, alistGet h.waiters cls = some ws →
      (processBucket ev ws).1 = [] →
      alistGet (dispatchStep ev h cls).1.waiters cls = none) ∧
    ((dispatch scenarioHandler evA).2.1 = [] ∧
      alistGet (dispatch scenarioHandler evA).1.waiters 2 =
        some [⟨0, .pending, some payloadIsOne⟩] ∧
      (dispatch (dispatch scenarioHandler evA).1 evB).2.1 =
        [⟨0, .doneEvent evB, some payloadIsOne⟩] ∧
      alistGet (dispatch (dispatch scenarioHandler evA).1 evB).1.waiters 2 = none) := by
  refine ⟨?_, ?_, ?_, ?_, ?_, rfl, rfl, rfl, rfl⟩
  · intro ev w hc
    simp [processWaiter, hc]
  · intro ev w c e hnc hck he
    simp [processWaiter, hnc, hck, he]
  · intro ev w hnc hck
    rcases hck with hnone | ⟨c, hsome, htrue⟩
    · simp [processWaiter, hnc, hnone]
    · simp [processWaiter, hnc, hsome, htrue]
  · intro ev w c hnc hck hfalse
    simp [processWaiter, hnc, hck, hfalse]
  · intro ev h cls ws hget hempty
    show alistGet (stepWaiters ev h.waiters cls) cls = none
    simp only [stepWaiters, hget, hempty, List.isEmpty_nil, if_true]
    exact alistGet_alistPop h.waiters cls

/-- C2 witness: each case of the waiter lifecycle at a concrete input — a
cancelled waiter, a raising predicate, an absent predicate, a rejecting
predicate, and a bucket emptied by resolution. -/
theorem C2_waiter_lifecycle_witness :
    (processWaiter evB ⟨5, .cancelled, none⟩ = (⟨5, .cancelled, none⟩, true)) ∧
    (processWaiter evB ⟨6, .pending, some raiseCheck⟩ =
      (⟨6, .doneError 42, some raiseCheck⟩, true)) ∧
    (processWaiter evB ⟨7, .pending, none⟩ = (⟨7, .doneEvent evB, none⟩, true)) ∧
    (processWaiter evA ⟨8, .pending, some payloadIsOne⟩ =
      (⟨8, .pending, some payloadIsOne⟩, false)) ∧
    alistGet
      (dispatchStep evB ⟨[], [(2, [⟨5, .cancelled, none⟩])]⟩ 2).1.waiters 2 = none :=
  ⟨C2_waiter_lifecycle.1 evB ⟨5, .cancelled, none⟩ rfl,
    C2_waiter_lifecycle.2.1 evB ⟨6, .pending, some raiseCheck⟩ raiseCheck 42
      (by simp) rfl rfl,
    C2_waiter_lifecycle.2.2.1 evB ⟨7, .pending, none⟩ (by simp) (.inl rfl),
    C2_waiter_lifecycle.2.2.2.1 evA ⟨8, .pending, some payloadIsOne⟩ payloadIsOne
      (by simp) rfl rfl,
    C2_waiter_lifecycle.2.2.2.2.1 evB ⟨[], [(2, [⟨5, .cancelled, none⟩])]⟩ 2
      [⟨5, .cancelled, none⟩] rfl rfl⟩

/-- A key present in the dict is a member as a pair. -/
theorem mem_of_alistGet {α : Type} (m : List (TypeKey × α)) (k : TypeKey) (v : α)
    (h : alistGet m k = some v) : (k, v) ∈ m := by
  induction m with
  | nil => simp [alistGet] at h
  | cons p rest ih =>
    obtain ⟨k', x⟩ := p
    simp only [alistGet] at h
    by_cases hk : k' = k
    · rw [if_pos hk] at h
      injection h with h
      subst hk h
      exact List.mem_cons_self _ _
    · rw [if_neg hk] at h
      exact List.mem_cons_of_mem _ (ih h)

/-- Every waiter of a registry extended by `setdefault`+`append` was either
present before or is the appended one. -/
theorem mem_alistAppend_waiters {α : Type} (m : List (TypeKey × List α)) (k : TypeKey)
    (x : α) (kw : TypeKey × List α) (hkw : kw ∈ alistAppend m k x)
    (w : α) (hw : w ∈ kw.2) :
    (∃ kw' ∈ m, w ∈ kw'.2) ∨ w = x := by
  induction m with
  | nil =>
    simp only [alistAppend, List.mem_singleton] at hkw
    subst hkw
    simp only [List.mem_singleton] at hw
    exact .inr hw
  | cons p rest ih =>
    obtain ⟨k', xs⟩ := p
    simp only [alistAppend] at hkw
    by_cases hk : k' = k
    · rw [if_pos hk] at hkw
      rcases List.mem_cons.mp hkw with h1 | h1
      · subst h1
        simp only [List.mem_append, List.mem_singleton] at hw
        rcases hw with h2 | h2
        · exact .inl ⟨(k', xs), List.mem_cons_self _ _, h2⟩
        · exact .inr h2
      · exact .inl ⟨kw, List.mem_cons_of_mem _ h1, hw⟩
    · rw [if_neg hk] at hkw
      rcases List.mem_cons.mp hkw with h1 | h1
      · subst h1
        exact .inl ⟨(k', xs), List.mem_cons_self _ _, hw⟩
      · rcases ih h1 with ⟨kw', hkw', hw'⟩ | h2
        · exact .inl ⟨kw', List.mem_cons_of_mem _ hkw', hw'⟩
        · exact .inr h2

/-- A member of the popped dict was a member before. -/
theorem mem_alistPop {α : Type} (m : List (TypeKey × α)) (k : TypeKey)
    (p : TypeKey × α) (hp : p ∈ alistPop m k) : p ∈ m := by
  induction m with
  | nil => simp [alistPop] at hp
  | cons q rest ih =>
    obtain ⟨k', v⟩ := q
    simp only [alistPop] at hp
    by_cases hk : k' = k
    · rw [if_pos hk] at hp
      exact List.mem_cons_of_mem _ (ih hp)
    · rw [if_neg hk] at hp
      rcases List.mem_cons.mp hp with h1 | h1
      · exact h1 ▸ List.mem_cons_self _ _
      · exact List.mem_cons_of_mem _ (ih h1)

/-- A member of the dict after a bucket replacement was a member before, or
carries the new bucket. -/
theorem mem_alistSet {α : Type} (m : List (TypeKey × α)) (k : TypeKey) (v : α)
    (p : TypeKey × α) (hp : p ∈ alistSet m k v) : p ∈ m ∨ p.2 = v := by
  induction m with
  | nil => simp [alistSet] at hp
  | cons q rest ih =>
    obtain ⟨k', x⟩ := q
    simp only [alistSet] at hp
    by_cases hk : k' = k
    · rw [if_pos hk] at hp
      rcases List.mem_cons.mp hp with h1 | h1
      · subst h1; exact .inr rfl
      · exact .inl (List.mem_cons_of_mem _ h1)
    · rw [if_neg hk] at hp
      rcases List.mem_cons.mp hp with h1 | h1
      · exact .inl (h1 ▸ List.mem_cons_self _ _)
      · rcases ih h1 with h2 | h2
        · exact .inl (List.mem_cons_of_mem _ h2)
        · exact .inr h2

/-- `alistGet` at a different key is unaffected by `alistPop`. -/
theorem alistGet_alistPop_ne {α : Type} (m : List (TypeKey × α)) (k k' : TypeKey)
    (h : k ≠ k') : alistGet (alistPop m k) k' = alistGet m k' := by
  induction m with
  | nil => rfl
  | cons q rest ih =>
    obtain ⟨k0, v⟩ := q
    by_cases hk : k0 = k
    · subst hk
      simp [alistPop, alistGet, ih, h]
    · simp only [alistPop, if_neg hk]
      by_cases hk' : k0 = k' <;> simp [alistGet, hk', ih]

/-- `alistGet` at a different key is unaffected by `alistSet`. -/
theorem alistGet_alistSet_ne {α : Type} (m : List (TypeKey × α)) (k k' : TypeKey)
    (v : α) (h : k ≠ k') : alistGet (alistSet m k v) k' = alistGet m k' := by
  induction m with
  | nil => rfl
  | cons q rest ih =>
    obtain ⟨k0, x⟩ := q
    by_cases hk : k0 = k
    · subst hk
      simp [alistSet, alistGet, h]
    · simp only [alistSet, if_neg hk]
      by_cases hk' : k0 = k' <;> simp [alistGet, hk', ih]

/-- Replacing a present bucket makes `alistGet` return the new bucket. -/
theorem alistGet_alistSet_self {α : Type} (m : List (TypeKey × α)) (k : TypeKey)
    (u v : α) (hu : alistGet m k = some u) : alistGet (alistSet m k v) k = some v := by
  induction m with
  | nil => simp [alistGet] at hu
  | cons q rest ih =>
    obtain ⟨k0, x⟩ := q
    simp only [alistGet] at hu
    by_cases hk : k0 = k
    · simp [alistSet, alistGet, hk]
    · rw [if_neg hk] at hu
      simp [alistSet, alistGet, hk, ih hu]

/-- A waiter the per-waiter loop keeps is the original waiter, whose future
was not cancelled. -/
theorem processWaiter_eq_false (ev : PyEvent) (w w' : Waiter)
    (h : processWaiter ev w = (w', false)) : w' = w ∧ w.state ≠ .cancelled := by
  unfold processWaiter at h
  split at h
  next hc => exact absurd (congrArg Prod.snd h) (by simp)
  next hc =>
    split at h
    · exact absurd (congrArg Prod.snd h) (by simp)
    · split at h
      · exact absurd (congrArg Prod.snd h) (by simp)
      · exact absurd (congrArg Prod.snd h) (by simp)
      · exact ⟨(congrArg Prod.fst h).symm, hc⟩

/-- In a bucket of unresolved waiters, every waiter the loop keeps is
pending. -/
theorem processBucket_kept_pending (ev : PyEvent) (ws : List Waiter)
    (hws : ∀ w ∈ ws, WaiterOK w) :
    ∀ w' ∈ (processBucket ev ws).1, w'.state = .pending := by
  intro w' hw'
  simp only [processBucket, List.mem_map, List.mem_filter] at hw'
  obtain ⟨⟨w2, flag⟩, ⟨hmem, hflag⟩, rfl⟩ := hw'
  obtain ⟨w, hwmem, hpw⟩ := hmem
  simp only [Bool.not_eq_true'] at hflag
  subst hflag
  obtain ⟨heq, hnc⟩ := processWaiter_eq_false ev w w2 hpw
  rw [heq]
  rcases hws w hwmem with hpend | hcanc
  · exact hpend
  · exact absurd hcanc hnc

/-- `stepWaiters` when no bucket is registered at `cls`. -/
theorem stepWaiters_none (ev : PyEvent) (m : List (TypeKey × List Waiter))
    (cls : TypeKey) (hg : alistGet m cls = none) : stepWaiters ev m cls = m := by
  unfold stepWaiters
  rw [hg]

/-- `stepWaiters` when the whole bucket was removed: the dict entry is
popped. -/
theorem stepWaiters_some_empty (ev : PyEvent) (m : List (TypeKey × List Waiter))
    (cls : TypeKey) (ws : List Waiter) (hg : alistGet m cls = some ws)
    (he : ((processBucket ev ws).1).isEmpty = true) :
    stepWaiters ev m cls = alistPop m cls := by
  unfold stepWaiters
  rw [hg]
  exact if_pos he

/-- `stepWaiters` when some waiters stay: the bucket is replaced by the kept
waiters. -/
theorem stepWaiters_some_nonempty (ev : PyEvent) (m : List (TypeKey × List Waiter))
    (cls : TypeKey) (ws : List Waiter) (hg : alistGet m cls = some ws)
    (he : ((processBucket ev ws).1).isEmpty = false) :
    stepWaiters ev m cls = alistSet m cls (processBucket ev ws).1 := by
  unfold stepWaiters
  rw [hg]
  exact if_neg (by simp [he])

/-- A dispatch-loop iteration keeps the waiter registry unresolved. -/
theorem stepWaiters_RegOK (ev : PyEvent) (m : List (TypeKey × List Waiter))
    (cls : TypeKey) (hm : RegOK m) : RegOK (stepWaiters ev m cls) := by
  cases hget : alistGet m cls with
  | none => rw [stepWaiters_none ev m cls hget]; exact hm
  | some ws =>
    cases he : ((processBucket ev ws).1).isEmpty with
    | true =>
      rw [stepWaiters_some_empty ev m cls ws hget he]
      intro kw hkw w hw
      exact hm kw (mem_alistPop _ _ _ hkw) w hw
    | false =>
      rw [stepWaiters_some_nonempty ev m cls ws hget he]
      intro kw hkw w hw
      rcases mem_alistSet _ _ _ _ hkw with h1 | h1
      · exact hm kw h1 w hw
      · have hws : ∀ w ∈ ws, WaiterOK w := hm (cls, ws) (mem_of_alistGet _ _ _ hget)
        rw [h1] at hw
        exact .inl (processBucket_kept_pending ev ws hws w hw)

/-- `add_waiter` keeps the registry unresolved (the new future is pending). -/
theorem addWaiter_RegOK (h : EventHandler) (cls : TypeKey) (fid : Nat)
    (check : Option Check) (hm : RegOK h.waiters) :
    RegOK (addWaiter h cls fid check).waiters := by
  intro kw hkw w hw
  rcases mem_alistAppend_waiters _ _ _ kw hkw w hw with ⟨kw', hkw', hw'⟩ | rfl
  · exact hm kw' hkw' w hw'
  · exact .inl rfl

/-- External cancellation keeps the registry unresolved. -/
theorem cancelFuture_RegOK (h : EventHandler) (fid : Nat) (hm : RegOK h.waiters) :
    RegOK (cancelFuture h fid).waiters := by
  intro kw hkw w hw
  simp only [cancelFuture, List.mem_map] at hkw
  obtain ⟨kw0, hkw0, rfl⟩ := hkw
  simp only [List.mem_map] at hw
  obtain ⟨w0, hw0, rfl⟩ := hw
  split
  · exact .inr rfl
  · exact hm kw0 hkw0 w0 hw0

/-- The dispatch loop over any visit list keeps the registry unresolved. -/
theorem dispatchAux_RegOK (ev : PyEvent) (keys : List TypeKey) (h : EventHandler)
    (hm : RegOK h.waiters) : RegOK (dispatchAux ev h keys).1.waiters := by
  induction keys generalizing h with
  | nil => exact hm
  | cons k rest ih => exact ih _ (stepWaiters_RegOK ev h.waiters k hm)

/-- Any single registry operation keeps the registry unresolved. -/
theorem applyOp_RegOK (h : EventHandler) (op : HOp) (hm : RegOK h.waiters) :
    RegOK (applyOp h op).waiters := by
  cases op with
  | addW cls fid check => exact addWaiter_RegOK h cls fid check hm
  | cancel fid => exact cancelFuture_RegOK h fid hm
  | disp ev => exact dispatchAux_RegOK ev (dispatchOrder ev) h hm

/-- Any operation sequence from the empty handler keeps the registry
unresolved. -/
theorem runOps_RegOK (ops : List HOp) : RegOK (runOps EventHandler.empty ops).waiters := by
  have step : ∀ (l : List HOp) (h : EventHandler),
      RegOK h.waiters → RegOK (runOps h l).waiters := by
    intro l
    induction l with
    | nil => intro h hm; exact hm
    | cons op rest ih => intro h hm; exact ih _ (applyOp_RegOK h op hm)
  exact step ops EventHandler.empty (by intro kw hkw; simp [EventHandler.empty] at hkw)

/-- If the bucket at a visited key survives a loop iteration, only pending
waiters remain in it. -/
theorem stepWaiters_get_self (ev : PyEvent) (m : List (TypeKey × List Waiter))
    (cls : TypeKey) (hm : RegOK m) (ws' : List Waiter)
    (hget : alistGet (stepWaiters ev m cls) cls = some ws') :
    ∀ w ∈ ws', w.state = .pending := by
  cases hg : alistGet m cls with
  | none =>
    rw [stepWaiters_none ev m cls hg, hg] at hget
    exact absurd hget (by simp)
  | some ws =>
    cases he : ((processBucket ev ws).1).isEmpty with
    | true =>
      rw [stepWaiters_some_empty ev m cls ws hg he, alistGet_alistPop] at hget
      exact absurd hget (by simp)
    | false =>
      rw [stepWaiters_some_nonempty ev m cls ws hg he,
        alistGet_alistSet_self m cls ws _ hg] at hget
      injection hget with hget
      subst hget
      exact processBucket_kept_pending ev ws (hm (cls, ws) (mem_of_alistGet _ _ _ hg))

/-- A loop iteration at any key preserves "the bucket at `cls` is all
pending" (for an unresolved registry). -/
theorem stepWaiters_pending_preserved (ev : PyEvent) (m : List (TypeKey × List Waiter))
    (k cls : TypeKey) (hm : RegOK m)
    (hp : ∀ ws, alistGet m cls = some ws → ∀ w ∈ ws, w.state = .pending) :
    ∀ ws, alistGet (stepWaiters ev m k) cls = some ws → ∀ w ∈ ws, w.state = .pending := by
  by_cases hk : k = cls
  · subst hk
    intro ws hws
    exact stepWaiters_get_self ev m k hm ws hws
  · intro ws hws
    cases hg : alistGet m k with
    | none =>
      rw [stepWaiters_none ev m k hg] at hws
      exact hp ws hws
    | some ws0 =>
      cases he : ((processBucket ev ws0).1).isEmpty with
      | true =>
        rw [stepWaiters_some_empty ev m k ws0 hg he,
          alistGet_alistPop_ne m k cls hk] at hws
        exact hp ws hws
      | false =>
        rw [stepWaiters_some_nonempty ev m k ws0 hg he,
          alistGet_alistSet_ne m k cls _ hk] at hws
        exact hp ws hws

/-- The dispatch loop preserves "the bucket at `cls` is all pending". -/
theorem dispatchAux_pending_preserved (ev : PyEvent) (keys : List TypeKey)
    (h : EventHandler) (cls : TypeKey) (hm : RegOK h.waiters)
    (hp : ∀ ws, alistGet h.waiters cls = some ws → ∀ w ∈ ws, w.state = .pending) :
    ∀ ws, alistGet (dispatchAux ev h keys).1.waiters cls = some ws →
      ∀ w ∈ ws, w.state = .pending := by
  induction keys generalizing h with
  | nil => exact hp
  | cons k rest ih =>
    exact ih _ (stepWaiters_RegOK ev h.waiters k hm)
      (stepWaiters_pending_preserved ev h.waiters k cls hm hp)

/-- After a dispatch pass, every bucket at a visited key holds only pending
waiters. -/
theorem dispatchAux_get_pending (ev : PyEvent) (keys : List TypeKey)
    (h : EventHandler) (hm : RegOK h.waiters) (cls : TypeKey) (hcls : cls ∈ keys) :
    ∀ ws, alistGet (dispatchAux ev h keys).1.waiters cls = some ws →
      ∀ w ∈ ws, w.state = .pending := by
  induction keys generalizing h with
  | nil => cases hcls
  | cons k rest ih =>
    rcases List.mem_cons.mp hcls with rfl | hmem
    · exact dispatchAux_pending_preserved ev rest _ cls
        (stepWaiters_RegOK ev h.waiters cls hm)
        (fun ws hws => stepWaiters_get_self ev h.waiters cls hm ws hws)
    · exact ih _ (stepWaiters_RegOK ev h.waiters k hm) hmem

/-- C9: after any sequence of waiter registrations, external cancellations
and dispatches, every `(future, check)` pair remaining in the waiter
registry is unresolved — neither fulfilled with an event nor with an error
(it is pending or cancelled) — and after a completed dispatch pass, no
cancelled waiter remains at any visited type key (only pending ones do). -/
theorem C9_registry_never_resolved (ops : List HOp) :
    (∀ kw ∈ (runOps EventHandler.empty ops).waiters, ∀ w ∈ kw.2,
      w.state = .pending ∨ w.state = .cancelled) ∧
    (∀ (ev : PyEvent) (cls : TypeKey), cls ∈ dispatchOrder ev →
      ∀ ws, alistGet (runOps EventHandler.empty (ops ++ [.disp ev])).waiters cls =
          some ws →
      ∀ w ∈ ws, w.state = .pending) := by
  refine ⟨runOps_RegOK ops, ?_⟩
  intro ev cls hcls ws hws w hw
  have h1 : runOps EventHandler.empty (ops ++ [HOp.disp ev]) =
      (dispatchAux ev (runOps EventHandler.empty ops) (dispatchOrder ev)).1 := by
    simp [runOps, List.foldl_append]
    rfl
  rw [h1] at hws
  exact dispatchAux_get_pending ev (dispatchOrder ev) _ (runOps_RegOK ops) cls hcls
    ws hws w hw

/-- C9 witness: register a waiter on `Base`, cancel it externally, then
dispatch a `Base` event — its registry holds no resolved entry, and the
visited buckets hold only pending waiters. -/
theorem C9_registry_never_resolved_witness :
    (∀ kw ∈ (runOps EventHandler.empty
        [.addW 2 0 (some payloadIsOne), .cancel 0]).waiters, ∀ w ∈ kw.2,
      w.state = .pending ∨ w.state = .cancelled) ∧
    (∀ (ev : PyEvent) (cls : TypeKey), cls ∈ dispatchOrder ev →
      ∀ ws, alistGet (runOps EventHandler.empty
          ([.addW 2 0 (some payloadIsOne), .cancel 0] ++ [.disp ev])).waiters cls =
          some ws →
      ∀ w ∈ ws, w.state = .pending) :=
  C9_registry_never_resolved [.addW 2 0 (some payloadIsOne), .cancel 0]

end Mutiny
